import Mathlib

/-!
Shallow embedding of the contract-lifecycle tracker in `streamlit_app.py`.

The persistent store (sqlite tables `users`, `contracts`, `approvals`,
`service_reports`, `invoices`) is modelled as lists of records; SQL
`INSERT` appends a row, `UPDATE ... WHERE id=?` maps a conditional field
update over the list, `SELECT ... WHERE id=?` is a `List.find?`, and
counting queries are `List.filter` + `length`.  The sqlite `REAL`
columns (`budget`, `parts_cost`, `labor_hours`, `amount`) are carried as
`Int`: no operation in the source ever computes with them, they are only
stored and displayed, so any value type is faithful.  The `uuid.uuid4()`
identifiers and `datetime` timestamps that the source generates are
passed in as explicit `String` parameters (resp. generator functions),
standing for the fresh values the source would produce.
-/

/-- Row of the `users` table (user_id, username, password, role). -/
structure User where
  user_id : String
  username : String
  password : String
  role : String
deriving DecidableEq

/-- Row of the `contracts` table. -/
structure Contract where
  contract_id : String
  vendor_name : String
  description : String
  start_date : String
  end_date : String
  budget : Int
  status : String
deriving DecidableEq

/-- Row of the `approvals` table: one row per contract per approver. -/
structure Approval where
  approval_id : String
  contract_id : String
  approver_id : String
  approval_status : String
  timestamp : String
deriving DecidableEq

/-- Row of the `service_reports` table. -/
structure ServiceReport where
  report_id : String
  contract_id : String
  service_date : String
  work_performed : String
  parts_cost : Int
  labor_hours : Int
deriving DecidableEq

/-- Row of the `invoices` table. -/
structure Invoice where
  invoice_id : String
  contract_id : String
  amount : Int
  invoice_date : String
  payment_status : String
deriving DecidableEq

/-- The whole persistent store `contracts.db`. -/
structure DB where
  users : List User
  contracts : List Contract
  approvals : List Approval
  service_reports : List ServiceReport
  invoices : List Invoice
deriving DecidableEq

/-- The empty store right after `init_db` creates the tables. -/
def dbEmpty : DB := ⟨[], [], [], [], []⟩

/-- Embedding of `UPDATE contracts SET status=? WHERE contract_id=?`. -/
def updateContracts (cid s : String) (l : List Contract) : List Contract :=
  l.map fun ct => if ct.contract_id = cid then { ct with status := s } else ct

/-- Embedding of `UPDATE approvals SET approval_status=? WHERE approval_id=?`. -/
def updateApprovalStatus (aid s : String) (l : List Approval) : List Approval :=
  l.map fun a => if a.approval_id = aid then { a with approval_status := s } else a

/-- Embedding of `SELECT user_id FROM users WHERE role='approver'`. -/
def approverIds (db : DB) : List String :=
  (db.users.filter fun u => u.role = "approver").map User.user_id

/-- One approval row as inserted by `submit_contract_for_approval`. -/
def mkApproval (cid now aid approver : String) : Approval :=
  { approval_id := aid, contract_id := cid, approver_id := approver,
    approval_status := "Pending", timestamp := now }

/-- First transaction of `submit_contract_for_approval` (lines 262-263):
`UPDATE contracts SET status='Pending Approval' WHERE contract_id=?`
followed by `conn.commit()`.  This is a separately durable step: the
source commits here before inserting any approval rows. -/
def submit_commit1 (cid : String) (db : DB) : DB :=
  { db with contracts := updateContracts cid "Pending Approval" db.contracts }

/-- Second transaction of `submit_contract_for_approval` (lines 267-275):
insert one `Pending` approval per user whose role is `'approver'`, then
`conn.commit()`.  `gen i` is the `uuid.uuid4()` drawn for the i-th
approver, `now` the `datetime.datetime.now()` string. -/
def submit_commit2 (cid : String) (gen : Nat → String) (now : String) (db : DB) : DB :=
  { db with approvals := db.approvals ++
      ((approverIds db).enum.map fun p => mkApproval cid now (gen p.1) p.2) }

/-- `submit_contract_for_approval(contract_id)`: both transactions in order. -/
def submit_contract_for_approval (cid : String) (gen : Nat → String) (now : String)
    (db : DB) : DB :=
  submit_commit2 cid gen now (submit_commit1 cid db)

/-- `SELECT COUNT(*) FROM approvals WHERE contract_id=? AND approval_status='Approved'`. -/
def approvedCount (db : DB) (cid : String) : Nat :=
  (db.approvals.filter fun a => a.contract_id = cid ∧ a.approval_status = "Approved").length

/-- `SELECT COUNT(*) FROM approvals WHERE contract_id=?`. -/
def totalCount (db : DB) (cid : String) : Nat :=
  (db.approvals.filter fun a => a.contract_id = cid).length

/-- First transaction of `approve_contract` (lines 322-323): set the
individual approval row to `Approved` and commit. -/
def approve_commit1 (aid : String) (db : DB) : DB :=
  { db with approvals := updateApprovalStatus aid "Approved" db.approvals }

/-- Second transaction of `approve_contract` (lines 326-344): recount and,
if every approval row of the contract is `Approved`, set the contract
`Active`. -/
def approve_commit2 (cid : String) (db : DB) : DB :=
  if approvedCount db cid = totalCount db cid then
    { db with contracts := updateContracts cid "Active" db.contracts }
  else db

/-- `approve_contract(approval_id, contract_id)`. -/
def approve_contract (aid cid : String) (db : DB) : DB :=
  approve_commit2 cid (approve_commit1 aid db)

/-- `reject_contract(approval_id, contract_id)` (lines 347-355): set the
approval row `Rejected` and, unconditionally, the contract `Rejected`;
one transaction (a single commit). -/
def reject_contract (aid cid : String) (db : DB) : DB :=
  { db with approvals := updateApprovalStatus aid "Rejected" db.approvals,
            contracts := updateContracts cid "Rejected" db.contracts }

/-- `create_contract` (lines 247-256): insert a new row in status `Draft`.
`cid` stands for the fresh `uuid.uuid4()` the source draws. -/
def create_contract (cid vendor desc sd ed : String) (budget : Int) (db : DB) : DB :=
  { db with contracts := db.contracts ++ [⟨cid, vendor, desc, sd, ed, budget, "Draft"⟩] }

/-- Service-report insertion from `manage_service_reports` (lines 396-404):
a pure append, with no check that `cid` names an existing contract. -/
def record_service_report (rid cid date work : String) (parts labor : Int)
    (db : DB) : DB :=
  { db with service_reports := db.service_reports ++ [⟨rid, cid, date, work, parts, labor⟩] }

/-- The unfiltered report listing (`SELECT ... FROM service_reports`). -/
def list_service_reports (db : DB) : List ServiceReport :=
  db.service_reports

/-- Invoice insertion from `manage_invoices` (lines 448-455). -/
def generate_invoice (iid cid : String) (amount : Int) (date : String) (db : DB) : DB :=
  { db with invoices := db.invoices ++ [⟨iid, cid, amount, date, "Pending"⟩] }

/-- Update of one invoice row in `mark_paid`. -/
def paidUpd (iid : String) (inv : Invoice) : Invoice :=
  if inv.invoice_id = iid then { inv with payment_status := "Paid" } else inv

/-- `UPDATE invoices SET payment_status='Paid' WHERE invoice_id=?`
(line 436), the Mark-Paid action of `manage_invoices`. -/
def mark_paid (iid : String) (db : DB) : DB :=
  { db with invoices := db.invoices.map (paidUpd iid) }

/-- `get_user(username, password)` (lines 104-111): the first row with
matching username and password, or `none`.  It only reads the store. -/
def get_user (username password : String) (db : DB) : Option User :=
  db.users.find? fun u => u.username = username ∧ u.password = password

/-- One iteration of `seed_users` (lines 94-100): insert the user unless a
row with that username already exists. -/
def seed_user (u : User) (db : DB) : DB :=
  if db.users.any fun x => x.username = u.username then db
  else { db with users := db.users ++ [u] }

/-- Every state-mutating operation of the application, for temporal claims
quantifying over arbitrary sequences of operations. -/
inductive Op where
  | createContract (cid vendor desc sd ed : String) (budget : Int)
  | submitContract (cid : String) (gen : Nat → String) (now : String)
  | approveOp (aid cid : String)
  | rejectOp (aid cid : String)
  | recordReport (rid cid date work : String) (parts labor : Int)
  | generateInvoice (iid cid : String) (amount : Int) (date : String)
  | markPaid (iid : String)
  | seedUser (u : User)

/-- Interpretation of one operation on the store. -/
def step (op : Op) (db : DB) : DB :=
  match op with
  | .createContract cid vendor desc sd ed budget => create_contract cid vendor desc sd ed budget db
  | .submitContract cid gen now => submit_contract_for_approval cid gen now db
  | .approveOp aid cid => approve_contract aid cid db
  | .rejectOp aid cid => reject_contract aid cid db
  | .recordReport rid cid date work parts labor => record_service_report rid cid date work parts labor db
  | .generateInvoice iid cid amount date => generate_invoice iid cid amount date db
  | .markPaid iid => mark_paid iid db
  | .seedUser u => seed_user u db

/-- Run a sequence of operations left to right. -/
def run (ops : List Op) (db : DB) : DB :=
  ops.foldl (fun d o => step o d) db

/-- Point lookup `SELECT status FROM contracts WHERE contract_id=?`. -/
def contractStatus (db : DB) (cid : String) : Option String :=
  (db.contracts.find? fun ct => ct.contract_id = cid).map Contract.status

/-- Point lookup of one approval's status. -/
def approvalStatus (db : DB) (aid : String) : Option String :=
  (db.approvals.find? fun a => a.approval_id = aid).map Approval.approval_status

/-- Point lookup of one invoice's payment status. -/
def invoiceStatus (db : DB) (iid : String) : Option String :=
  (db.invoices.find? fun inv => inv.invoice_id = iid).map Invoice.payment_status

/-! ### Lookup lemmas for the two row-update statements -/

theorem updateApprovalStatus_cons (aid s : String) (a : Approval) (t : List Approval) :
    updateApprovalStatus aid s (a :: t) =
      (if a.approval_id = aid then { a with approval_status := s } else a)
        :: updateApprovalStatus aid s t := rfl

theorem updateContracts_cons (cid s : String) (ct : Contract) (t : List Contract) :
    updateContracts cid s (ct :: t) =
      (if ct.contract_id = cid then { ct with status := s } else ct)
        :: updateContracts cid s t := rfl

theorem find_updateApprovalStatus (l : List Approval) (aid s : String) :
    ((updateApprovalStatus aid s l).find? fun a => a.approval_id = aid) =
      (l.find? fun a => a.approval_id = aid).map fun a => { a with approval_status := s } := by
  induction l with
  | nil => rfl
  | cons a t ih =>
    rw [updateApprovalStatus_cons]
    by_cases h : a.approval_id = aid
    · rw [if_pos h, List.find?_cons_of_pos _ (by simpa using h),
        List.find?_cons_of_pos _ (by simpa using h)]
      rfl
    · rw [if_neg h, List.find?_cons_of_neg _ (by simpa using h),
        List.find?_cons_of_neg _ (by simpa using h)]
      exact ih

theorem find_updateApprovalStatus_ne (l : List Approval) (aid s b : String) (hb : b ≠ aid) :
    ((updateApprovalStatus aid s l).find? fun a => a.approval_id = b) =
      l.find? fun a => a.approval_id = b := by
  induction l with
  | nil => rfl
  | cons a t ih =>
    rw [updateApprovalStatus_cons]
    by_cases h : a.approval_id = aid
    · have hab : ¬ a.approval_id = b := fun hh => hb (hh ▸ h ▸ rfl)
      rw [if_pos h, List.find?_cons_of_neg _ (by simpa using hab),
        List.find?_cons_of_neg _ (by simpa using hab)]
      exact ih
    · rw [if_neg h]
      by_cases h2 : a.approval_id = b
      · rw [List.find?_cons_of_pos _ (by simpa using h2),
          List.find?_cons_of_pos _ (by simpa using h2)]
      · rw [List.find?_cons_of_neg _ (by simpa using h2),
          List.find?_cons_of_neg _ (by simpa using h2)]
        exact ih

theorem find_updateContracts (l : List Contract) (cid s : String) :
    ((updateContracts cid s l).find? fun ct => ct.contract_id = cid) =
      (l.find? fun ct => ct.contract_id = cid).map fun ct => { ct with status := s } := by
  induction l with
  | nil => rfl
  | cons ct t ih =>
    rw [updateContracts_cons]
    by_cases h : ct.contract_id = cid
    · rw [if_pos h, List.find?_cons_of_pos _ (by simpa using h),
        List.find?_cons_of_pos _ (by simpa using h)]
      rfl
    · rw [if_neg h, List.find?_cons_of_neg _ (by simpa using h),
        List.find?_cons_of_neg _ (by simpa using h)]
      exact ih

theorem find_updateContracts_ne (l : List Contract) (cid s b : String) (hb : b ≠ cid) :
    ((updateContracts cid s l).find? fun ct => ct.contract_id = b) =
      l.find? fun ct => ct.contract_id = b := by
  induction l with
  | nil => rfl
  | cons ct t ih =>
    rw [updateContracts_cons]
    by_cases h : ct.contract_id = cid
    · have hab : ¬ ct.contract_id = b := fun hh => hb (hh ▸ h ▸ rfl)
      rw [if_pos h, List.find?_cons_of_neg _ (by simpa using hab),
        List.find?_cons_of_neg _ (by simpa using hab)]
      exact ih
    · rw [if_neg h]
      by_cases h2 : ct.contract_id = b
      · rw [List.find?_cons_of_pos _ (by simpa using h2),
          List.find?_cons_of_pos _ (by simpa using h2)]
      · rw [List.find?_cons_of_neg _ (by simpa using h2),
          List.find?_cons_of_neg _ (by simpa using h2)]
        exact ih

theorem contractStatus_updateContracts (db : DB) (l : List Contract) (cid s : String) :
    contractStatus { db with contracts := updateContracts cid s l } cid =
      ((l.find? fun ct => ct.contract_id = cid).map fun ct => { ct with status := s }).map
        Contract.status := by
  unfold contractStatus
  rw [show ({ db with contracts := updateContracts cid s l } : DB).contracts =
    updateContracts cid s l from rfl, find_updateContracts]

theorem approve_contract_approvals (aid cid : String) (db : DB) :
    (approve_contract aid cid db).approvals = (approve_commit1 aid db).approvals := by
  unfold approve_contract approve_commit2
  split <;> rfl

theorem approvedCount_eq_of_approvals (db1 db2 : DB) (cid : String)
    (h : db1.approvals = db2.approvals) : approvedCount db1 cid = approvedCount db2 cid := by
  unfold approvedCount
  rw [h]

theorem totalCount_eq_of_approvals (db1 db2 : DB) (cid : String)
    (h : db1.approvals = db2.approvals) : totalCount db1 cid = totalCount db2 cid := by
  unfold totalCount
  rw [h]

/-- C1: after `decideApproval(approvalId, Approved)` (`approve_contract`)
sets the target approval to `Approved`, the contract's status is set to
`"Active"` if and only if the count of `Approved` approvals for the
contract equals the total count of its approvals (both recomputed after
the update); when the counts differ the contract's status is left
unchanged, and other contracts' statuses are never touched. -/
theorem C1_decide_approved (db : DB) (aid cid c' : String) :
    approvalStatus (approve_contract aid cid db) aid =
      (approvalStatus db aid).map (fun _ => "Approved")
    ∧ contractStatus (approve_contract aid cid db) cid =
        (if approvedCount (approve_contract aid cid db) cid =
            totalCount (approve_contract aid cid db) cid
         then (contractStatus db cid).map (fun _ => "Active")
         else contractStatus db cid)
    ∧ (c' ≠ cid →
        contractStatus (approve_contract aid cid db) c' = contractStatus db c') := by
  have hA : approvedCount (approve_contract aid cid db) cid =
      approvedCount (approve_commit1 aid db) cid :=
    approvedCount_eq_of_approvals _ _ cid (approve_contract_approvals aid cid db)
  have hT : totalCount (approve_contract aid cid db) cid =
      totalCount (approve_commit1 aid db) cid :=
    totalCount_eq_of_approvals _ _ cid (approve_contract_approvals aid cid db)
  refine ⟨?_, ?_, ?_⟩
  · unfold approvalStatus
    rw [show (approve_contract aid cid db).approvals =
      updateApprovalStatus aid "Approved" db.approvals from
        approve_contract_approvals aid cid db, find_updateApprovalStatus]
    cases db.approvals.find? fun a => a.approval_id = aid <;> rfl
  · rw [hA, hT]
    by_cases h : approvedCount (approve_commit1 aid db) cid =
        totalCount (approve_commit1 aid db) cid
    · rw [if_pos h]
      unfold contractStatus
      rw [show (approve_contract aid cid db).contracts =
        updateContracts cid "Active" db.contracts by
          unfold approve_contract approve_commit2
          rw [if_pos h]
          rfl, find_updateContracts]
      cases db.contracts.find? fun ct => ct.contract_id = cid <;> rfl
    · rw [if_neg h]
      unfold contractStatus
      rw [show (approve_contract aid cid db).contracts = db.contracts by
        unfold approve_contract approve_commit2
        rw [if_neg h]
        rfl]
  · intro hne
    unfold contractStatus
    by_cases h : approvedCount (approve_commit1 aid db) cid =
        totalCount (approve_commit1 aid db) cid
    · rw [show (approve_contract aid cid db).contracts =
        updateContracts cid "Active" db.contracts by
          unfold approve_contract approve_commit2
          rw [if_pos h]
          rfl, find_updateContracts_ne db.contracts cid "Active" c' hne]
    · rw [show (approve_contract aid cid db).contracts = db.contracts by
        unfold approve_contract approve_commit2
        rw [if_neg h]
        rfl]

/-- Store used as a concrete input for claim C1: contract `c1` in
`Pending Approval` with three approvals, one already `Approved`. -/
def dbW1 : DB :=
  ⟨[], [⟨"c1", "V", "D", "s", "e", 0, "Pending Approval"⟩],
    [⟨"a1", "c1", "u1", "Pending", "t0"⟩,
     ⟨"a2", "c1", "u2", "Approved", "t0"⟩,
     ⟨"a3", "c1", "u3", "Pending", "t0"⟩], [], []⟩

/-- Witness for C1 at a concrete store: approving one of three approvals
leaves an unrelated contract id's status untouched. -/
theorem C1_decide_approved_witness :
    contractStatus (approve_contract "a1" "c1" dbW1) "c9" = contractStatus dbW1 "c9" :=
  (C1_decide_approved dbW1 "a1" "c1" "c9").2.2 (by decide)

/-- C2: `decideApproval(approvalId, Rejected)` (`reject_contract`) sets the
target approval to `Rejected` and unconditionally sets the contract's
status to `"Rejected"`; every other approval row is left unchanged. -/
theorem C2_decide_rejected (db : DB) (aid cid a' : String) :
    approvalStatus (reject_contract aid cid db) aid =
      (approvalStatus db aid).map (fun _ => "Rejected")
    ∧ contractStatus (reject_contract aid cid db) cid =
        (contractStatus db cid).map (fun _ => "Rejected")
    ∧ (a' ≠ aid →
        approvalStatus (reject_contract aid cid db) a' = approvalStatus db a')
    ∧ (∀ a ∈ db.approvals, a.approval_id ≠ aid →
        a ∈ (reject_contract aid cid db).approvals) := by
  refine ⟨?_, ?_, ?_, ?_⟩
  · unfold approvalStatus
    rw [show (reject_contract aid cid db).approvals =
      updateApprovalStatus aid "Rejected" db.approvals from rfl, find_updateApprovalStatus]
    cases db.approvals.find? fun a => a.approval_id = aid <;> rfl
  · unfold contractStatus
    rw [show (reject_contract aid cid db).contracts =
      updateContracts cid "Rejected" db.contracts from rfl, find_updateContracts]
    cases db.contracts.find? fun ct => ct.contract_id = cid <;> rfl
  · intro hne
    unfold approvalStatus
    rw [show (reject_contract aid cid db).approvals =
      updateApprovalStatus aid "Rejected" db.approvals from rfl,
      find_updateApprovalStatus_ne db.approvals aid "Rejected" a' hne]
  · intro a ha hne
    have hmem : (if a.approval_id = aid then { a with approval_status := "Rejected" } else a)
        ∈ updateApprovalStatus aid "Rejected" db.approvals :=
      List.mem_map_of_mem _ ha
    rw [if_neg hne] at hmem
    exact hmem

/-- Store used as a concrete input for claim C2: contract `c1` pending
with one approval already `Approved` and one still `Pending`. -/
def dbW2 : DB :=
  ⟨[], [⟨"c1", "V", "D", "s", "e", 0, "Pending Approval"⟩],
    [⟨"a1", "c1", "u1", "Approved", "t0"⟩,
     ⟨"a2", "c1", "u2", "Pending", "t0"⟩], [], []⟩

/-- Witness for C2 at a concrete store: rejecting `a2` leaves the already
`Approved` row `a1` untouched. -/
theorem C2_decide_rejected_witness :
    approvalStatus (reject_contract "a2" "c1" dbW2) "a1" = approvalStatus dbW2 "a1" :=
  (C2_decide_rejected dbW2 "a2" "c1" "a1").2.2.1 (by decide)

theorem submit_approvals (cid : String) (gen : Nat → String) (now : String) (db : DB) :
    (submit_contract_for_approval cid gen now db).approvals =
      db.approvals ++ ((approverIds db).enum.map fun p => mkApproval cid now (gen p.1) p.2) :=
  rfl

/-- C3: `submitContract` sets the contract's status to `"Pending Approval"`
and appends exactly one new `Pending` approval row, timestamped `now`, per
user whose role is `"approver"` at the moment of the call (a snapshot of
the `users` table); no other record kind is modified. -/
theorem C3_submit (db : DB) (cid now : String) (gen : Nat → String) :
    contractStatus (submit_contract_for_approval cid gen now db) cid =
      (contractStatus db cid).map (fun _ => "Pending Approval")
    ∧ (submit_contract_for_approval cid gen now db).approvals.length =
        db.approvals.length + (db.users.filter fun u => u.role = "approver").length
    ∧ ((submit_contract_for_approval cid gen now db).approvals.drop
        db.approvals.length).map Approval.approver_id = approverIds db
    ∧ (∀ a ∈ (submit_contract_for_approval cid gen now db).approvals.drop
        db.approvals.length,
        a.contract_id = cid ∧ a.approval_status = "Pending" ∧ a.timestamp = now)
    ∧ (submit_contract_for_approval cid gen now db).approvals.take
        db.approvals.length = db.approvals
    ∧ (submit_contract_for_approval cid gen now db).users = db.users
    ∧ (submit_contract_for_approval cid gen now db).service_reports = db.service_reports
    ∧ (submit_contract_for_approval cid gen now db).invoices = db.invoices := by
  refine ⟨?_, ?_, ?_, ?_, ?_, rfl, rfl, rfl⟩
  · unfold contractStatus
    rw [show (submit_contract_for_approval cid gen now db).contracts =
      updateContracts cid "Pending Approval" db.contracts from rfl, find_updateContracts]
    cases db.contracts.find? fun ct => ct.contract_id = cid <;> rfl
  · rw [submit_approvals]
    simp [approverIds, List.enum_length]
  · rw [submit_approvals, List.drop_left]
    rw [List.map_map]
    have : (Approval.approver_id ∘ fun p : Nat × String => mkApproval cid now (gen p.1) p.2)
        = Prod.snd := rfl
    rw [this]
    exact List.enum_map_snd _
  · intro a ha
    rw [submit_approvals, List.drop_left] at ha
    obtain ⟨p, _, rfl⟩ := List.mem_map.mp ha
    exact ⟨rfl, rfl, rfl⟩
  · rw [submit_approvals, List.take_left]

/-- The demo users of `seed_users`, as concrete records. -/
def mgrU : User := ⟨"u0", "manager_user", "manager_pass", "manager"⟩

def appU1 : User := ⟨"u1", "approver_user1", "approver_pass1", "approver"⟩

def appU2 : User := ⟨"u2", "approver_user2", "approver_pass2", "approver"⟩

def appU3 : User := ⟨"u3", "approver_user3", "approver_pass3", "approver"⟩

def finU : User := ⟨"u4", "finance_user", "finance_pass", "finance"⟩

/-- Identifier generator standing for the fresh uuid4 draws. -/
def genT : Nat → String := fun n => toString n

/-- Store used as a concrete input for claim C3: the five seeded users
and one contract in `Draft`. -/
def dbW3 : DB :=
  ⟨[mgrU, appU1, appU2, appU3, finU],
    [⟨"c1", "V", "D", "s", "e", 0, "Draft"⟩], [], [], []⟩

/-- Witness for C3 at a concrete store: the first approval row created by
submitting `c1` is a `Pending` row for `c1` timestamped at the call. -/
theorem C3_submit_witness :
    (mkApproval "c1" "t0" "0" "u1").contract_id = "c1"
    ∧ (mkApproval "c1" "t0" "0" "u1").approval_status = "Pending"
    ∧ (mkApproval "c1" "t0" "0" "u1").timestamp = "t0" :=
  (C3_submit dbW3 "c1" "t0" genT).2.2.2.1 (mkApproval "c1" "t0" "0" "u1") (by decide)

/-- The four contract statuses the spec allows. -/
def statusOK (s : String) : Prop :=
  s ∈ (["Draft", "Pending Approval", "Active", "Rejected"] : List String)

theorem statusOK_draft : statusOK "Draft" := by unfold statusOK; decide

theorem statusOK_pending : statusOK "Pending Approval" := by unfold statusOK; decide

theorem statusOK_active : statusOK "Active" := by unfold statusOK; decide

theorem statusOK_rejected : statusOK "Rejected" := by unfold statusOK; decide

/-- Every contract row carries one of the four statuses. -/
def StatusInv (db : DB) : Prop := ∀ ct ∈ db.contracts, statusOK ct.status

theorem statusInv_updateContracts (l : List Contract) (cid s : String)
    (hs : statusOK s) (h : ∀ ct ∈ l, statusOK ct.status) :
    ∀ ct ∈ updateContracts cid s l, statusOK ct.status := by
  intro ct hct
  obtain ⟨c0, hc0, rfl⟩ := List.mem_map.mp hct
  by_cases hc : c0.contract_id = cid
  · rw [if_pos hc]
    exact hs
  · rw [if_neg hc]
    exact h c0 hc0

theorem seed_user_contracts (u : User) (db : DB) :
    (seed_user u db).contracts = db.contracts := by
  unfold seed_user
  split <;> rfl

theorem approve_contract_contracts_pos (aid cid : String) (db : DB)
    (hc : approvedCount (approve_commit1 aid db) cid = totalCount (approve_commit1 aid db) cid) :
    (approve_contract aid cid db).contracts = updateContracts cid "Active" db.contracts := by
  unfold approve_contract approve_commit2
  rw [if_pos hc]
  rfl

theorem approve_contract_contracts_neg (aid cid : String) (db : DB)
    (hc : ¬ approvedCount (approve_commit1 aid db) cid
        = totalCount (approve_commit1 aid db) cid) :
    (approve_contract aid cid db).contracts = db.contracts := by
  unfold approve_contract approve_commit2
  rw [if_neg hc]
  rfl

theorem step_statusInv (op : Op) (db : DB) (h : StatusInv db) : StatusInv (step op db) := by
  have h' : ∀ ct ∈ db.contracts, statusOK ct.status := h
  cases op with
  | createContract cid vendor desc sd ed budget =>
    intro ct hct
    have hct' : ct ∈ db.contracts ++
        [(⟨cid, vendor, desc, sd, ed, budget, "Draft"⟩ : Contract)] := hct
    rcases List.mem_append.mp hct' with h1 | h2
    · exact h' ct h1
    · rw [List.mem_singleton.mp h2]
      exact statusOK_draft
  | submitContract cid gen now =>
    intro ct hct
    have hct' : ct ∈ updateContracts cid "Pending Approval" db.contracts := hct
    exact statusInv_updateContracts db.contracts cid "Pending Approval" statusOK_pending h' ct hct'
  | approveOp aid cid =>
    intro ct hct
    by_cases hc : approvedCount (approve_commit1 aid db) cid
        = totalCount (approve_commit1 aid db) cid
    · have e : (step (Op.approveOp aid cid) db).contracts =
          updateContracts cid "Active" db.contracts :=
        approve_contract_contracts_pos aid cid db hc
      rw [e] at hct
      exact statusInv_updateContracts db.contracts cid "Active" statusOK_active h' ct hct
    · have e : (step (Op.approveOp aid cid) db).contracts = db.contracts :=
        approve_contract_contracts_neg aid cid db hc
      rw [e] at hct
      exact h' ct hct
  | rejectOp aid cid =>
    intro ct hct
    have hct' : ct ∈ updateContracts cid "Rejected" db.contracts := hct
    exact statusInv_updateContracts db.contracts cid "Rejected" statusOK_rejected h' ct hct'
  | recordReport rid cid date work parts labor =>
    intro ct hct
    exact h' ct hct
  | generateInvoice iid cid amount date =>
    intro ct hct
    exact h' ct hct
  | markPaid iid =>
    intro ct hct
    exact h' ct hct
  | seedUser u =>
    intro ct hct
    rw [show (step (Op.seedUser u) db).contracts = db.contracts from
      seed_user_contracts u db] at hct
    exact h' ct hct

theorem run_statusInv (ops : List Op) (db : DB) (h : StatusInv db) :
    StatusInv (run ops db) := by
  induction ops generalizing db with
  | nil => exact h
  | cons op t ih => exact ih (step op db) (step_statusInv op db h)

/-- Demo operation trace reaching an `Active` contract: seed one approver,
create contract `c1`, submit it, and approve the single approval. -/
def exOps : List Op :=
  [.seedUser appU1, .createContract "c1" "V" "D" "s" "e" 0,
   .submitContract "c1" genT "t0", .approveOp "0" "c1"]

/-- Counterexample to C4 as stated: along a concrete reachable trace the
contract `c1` is `Active`, yet one further `decideApproval(Rejected)` on
its (already `Approved`) approval row flips the contract to `Rejected` —
`reject_contract` never inspects the contract's current status, so
`Active` is not terminal under re-deciding. -/
theorem C4_counterexample :
    contractStatus (run exOps dbEmpty) "c1" = some "Active"
    ∧ contractStatus (run (exOps ++ [Op.rejectOp "0" "c1"]) dbEmpty) "c1" =
        some "Rejected" := by
  constructor <;> rfl

/-- C4 (amended): every reachable contract status is in
`{Draft, Pending Approval, Active, Rejected}`; once `Active`, further
`decideApproval(Approved)` calls leave the contract's status unchanged;
but `decideApproval(Rejected)` unconditionally sets the contract
`Rejected` even from `Active`, so `Active`/`Rejected` are terminal only
when decided approvals are never re-decided. -/
theorem C4_amended (ops : List Op) (db : DB) (aid cid c : String) :
    (∀ ct ∈ (run ops dbEmpty).contracts,
      ct.status ∈ (["Draft", "Pending Approval", "Active", "Rejected"] : List String))
    ∧ (contractStatus db c = some "Active" →
        contractStatus (approve_contract aid cid db) c = some "Active")
    ∧ contractStatus (reject_contract aid cid db) cid =
        (contractStatus db cid).map (fun _ => "Rejected") := by
  refine ⟨run_statusInv ops dbEmpty (by intro ct hct; cases hct), ?_, ?_⟩
  · intro hact
    by_cases hcc : c = cid
    · subst hcc
      by_cases h : approvedCount (approve_commit1 aid db) c =
          totalCount (approve_commit1 aid db) c
      · unfold contractStatus at hact ⊢
        rw [approve_contract_contracts_pos aid c db h, find_updateContracts]
        cases hf : db.contracts.find? fun ct => ct.contract_id = c with
        | none => rw [hf] at hact; exact absurd hact (by simp)
        | some ct0 => rfl
      · unfold contractStatus at hact ⊢
        rw [approve_contract_contracts_neg aid c db h]
        exact hact
    · rw [← hact]
      unfold contractStatus
      by_cases h : approvedCount (approve_commit1 aid db) cid =
          totalCount (approve_commit1 aid db) cid
      · rw [approve_contract_contracts_pos aid cid db h,
          find_updateContracts_ne db.contracts cid "Active" c hcc]
      · rw [approve_contract_contracts_neg aid cid db h]
  · unfold contractStatus
    rw [show (reject_contract aid cid db).contracts =
      updateContracts cid "Rejected" db.contracts from rfl, find_updateContracts]
    cases db.contracts.find? fun ct => ct.contract_id = cid <;> rfl

/-- Store used as a concrete input for the C4 witness: contract `c1`
already `Active` with its single approval `Approved`. -/
def dbActive1 : DB :=
  ⟨[], [⟨"c1", "V", "D", "s", "e", 0, "Active"⟩],
    [⟨"a1", "c1", "u1", "Approved", "t0"⟩], [], []⟩

/-- Witness for the amended C4: a further `Approved` decision on an
`Active` contract leaves it `Active`. -/
theorem C4_amended_witness :
    contractStatus (approve_contract "a1" "c1" dbActive1) "c1" = some "Active" :=
  (C4_amended [] dbActive1 "a1" "c1" "c1").2.1 (by decide)

/-- Store used for claim C5: the seeded approver and contract `c1` in
`Draft`, right before the manager presses Submit. -/
def dbC5 : DB := ⟨[appU1], [⟨"c1", "V", "D", "s", "e", 0, "Draft"⟩], [], [], []⟩

/-- C5: `submit_contract_for_approval` is not one atomic unit: it runs two
separate sqlite transactions — the status `UPDATE` is committed (first
`conn.commit()`, line 263) before any approval row is inserted (second
`conn.commit()`, line 275).  The state after the first commit alone is
durable, and in it the contract is already `"Pending Approval"` while
zero of the one-per-approver approval rows exist; the completed call
would have inserted one. -/
theorem C5_commit_boundary :
    contractStatus (submit_commit1 "c1" dbC5) "c1" = some "Pending Approval"
    ∧ (submit_commit1 "c1" dbC5).approvals = []
    ∧ (submit_contract_for_approval "c1" genT "t0" dbC5).approvals.length = 1 :=
  ⟨rfl, rfl, rfl⟩

theorem approved_le_total_aux (l : List Approval) (cid : String) :
    (l.filter fun a => a.contract_id = cid ∧ a.approval_status = "Approved").length ≤
      (l.filter fun a => a.contract_id = cid).length := by
  induction l with
  | nil => simp
  | cons a t ih =>
    rw [List.filter_cons, List.filter_cons]
    by_cases h1 : a.contract_id = cid
    · by_cases h2 : a.approval_status = "Approved"
      · rw [if_pos (by simp [h1, h2]), if_pos (by simp [h1])]
        simp only [List.length_cons]
        exact Nat.succ_le_succ ih
      · rw [if_neg (by simp [h1, h2]), if_pos (by simp [h1])]
        simp only [List.length_cons]
        exact Nat.le_succ_of_le ih
    · rw [if_neg (by simp [h1]), if_neg (by simp [h1])]
      exact ih

theorem approvedCount_le_totalCount (db : DB) (cid : String) :
    approvedCount db cid ≤ totalCount db cid :=
  approved_le_total_aux db.approvals cid

theorem submit_totalCount (db : DB) (cid now : String) (gen : Nat → String) :
    totalCount (submit_contract_for_approval cid gen now db) cid =
      totalCount db cid + (approverIds db).length := by
  have hnew : ((approverIds db).enum.map fun p => mkApproval cid now (gen p.1) p.2).filter
      (fun a => a.contract_id = cid) =
      (approverIds db).enum.map fun p => mkApproval cid now (gen p.1) p.2 :=
    List.filter_eq_self.mpr (by
      intro a ha
      obtain ⟨p, _, rfl⟩ := List.mem_map.mp ha
      simp [mkApproval])
  unfold totalCount
  rw [submit_approvals, List.filter_append, List.length_append, hnew]
  simp

theorem submit_approvedCount (db : DB) (cid now : String) (gen : Nat → String) :
    approvedCount (submit_contract_for_approval cid gen now db) cid =
      approvedCount db cid := by
  have hnew : ((approverIds db).enum.map fun p => mkApproval cid now (gen p.1) p.2).filter
      (fun a => a.contract_id = cid ∧ a.approval_status = "Approved") = [] :=
    List.filter_eq_nil_iff.mpr (by
      intro a ha
      obtain ⟨p, _, rfl⟩ := List.mem_map.mp ha
      simp [mkApproval])
  unfold approvedCount
  rw [submit_approvals, List.filter_append, hnew]
  simp

/-- C6: `submitContract` checks neither that the contract exists nor that
it is in `Draft`: on any store it sets the contract's status (back) to
`"Pending Approval"`, appends a further full set of `Pending` approval
rows (one per current approver), raising the total used by the unanimity
check while leaving the approved count as it was — so whenever at least
one approver exists, previously recorded approvals no longer suffice for
`Active`. -/
theorem C6_resubmit (db : DB) (cid now : String) (gen : Nat → String) :
    contractStatus (submit_contract_for_approval cid gen now db) cid =
      (contractStatus db cid).map (fun _ => "Pending Approval")
    ∧ totalCount (submit_contract_for_approval cid gen now db) cid =
        totalCount db cid + (approverIds db).length
    ∧ approvedCount (submit_contract_for_approval cid gen now db) cid =
        approvedCount db cid
    ∧ (0 < (approverIds db).length →
        approvedCount (submit_contract_for_approval cid gen now db) cid <
          totalCount (submit_contract_for_approval cid gen now db) cid) := by
  refine ⟨?_, submit_totalCount db cid now gen, submit_approvedCount db cid now gen, ?_⟩
  · unfold contractStatus
    rw [show (submit_contract_for_approval cid gen now db).contracts =
      updateContracts cid "Pending Approval" db.contracts from rfl, find_updateContracts]
    cases db.contracts.find? fun ct => ct.contract_id = cid <;> rfl
  · intro hpos
    rw [submit_totalCount db cid now gen, submit_approvedCount db cid now gen]
    have hle := approvedCount_le_totalCount db cid
    omega

/-- Store used for the C6 witness: contract `c1` already `Active`, its
single approval `Approved`, one approver still present. -/
def dbW6 : DB :=
  ⟨[appU1], [⟨"c1", "V", "D", "s", "e", 0, "Active"⟩],
    [⟨"a0", "c1", "u1", "Approved", "t0"⟩], [], []⟩

/-- Witness for C6: resubmitting the already `Active` contract `c1` makes
the approved count fall strictly short of the new total. -/
theorem C6_resubmit_witness :
    approvedCount (submit_contract_for_approval "c1" genT "t1" dbW6) "c1" <
      totalCount (submit_contract_for_approval "c1" genT "t1" dbW6) "c1" :=
  (C6_resubmit dbW6 "c1" "t1" genT).2.2.2 (by decide)

theorem paidUpd_idem (iid : String) (inv : Invoice) :
    paidUpd iid (paidUpd iid inv) = paidUpd iid inv := by
  by_cases h : inv.invoice_id = iid <;> simp [paidUpd, h]

theorem paidUpd_of_paid (iid : String) (inv : Invoice)
    (hp : inv.payment_status = "Paid") : paidUpd iid inv = inv := by
  unfold paidUpd
  by_cases h : inv.invoice_id = iid
  · rw [if_pos h]
    cases inv with
    | mk i1 i2 i3 i4 i5 =>
      simp only at hp
      simp [hp]
  · rw [if_neg h]

theorem paidUpd_cons (iid : String) (inv : Invoice) (t : List Invoice) :
    (inv :: t).map (paidUpd iid) = paidUpd iid inv :: t.map (paidUpd iid) := rfl

theorem find_mark_paid (l : List Invoice) (iid : String) :
    ((l.map (paidUpd iid)).find? fun inv => inv.invoice_id = iid) =
      (l.find? fun inv => inv.invoice_id = iid).map
        fun inv => { inv with payment_status := "Paid" } := by
  induction l with
  | nil => rfl
  | cons inv t ih =>
    rw [paidUpd_cons]
    by_cases h : inv.invoice_id = iid
    · rw [show paidUpd iid inv = { inv with payment_status := "Paid" } from by
        unfold paidUpd
        rw [if_pos h]]
      rw [List.find?_cons_of_pos _ (by simpa using h),
        List.find?_cons_of_pos _ (by simpa using h)]
      rfl
    · rw [show paidUpd iid inv = inv from by
        unfold paidUpd
        rw [if_neg h]]
      rw [List.find?_cons_of_neg _ (by simpa using h),
        List.find?_cons_of_neg _ (by simpa using h)]
      exact ih

theorem approve_contract_invoices (aid cid : String) (db : DB) :
    (approve_contract aid cid db).invoices = db.invoices := by
  unfold approve_contract approve_commit2
  split <;> rfl

theorem seed_user_invoices (u : User) (db : DB) :
    (seed_user u db).invoices = db.invoices := by
  unfold seed_user
  split <;> rfl

/-- C7: the Mark-Paid action sets the targeted invoice's payment status to
`"Paid"`; a `Paid` invoice row survives every defined operation unchanged
(so nothing takes it back to `Pending`); a second Mark-Paid on the same
invoice is a no-op; and Mark-Paid never touches an invoice's id,
contract, amount or date. -/
theorem C7_markPaid (db : DB) (iid : String) (op : Op) :
    invoiceStatus (mark_paid iid db) iid = (invoiceStatus db iid).map (fun _ => "Paid")
    ∧ (∀ inv ∈ db.invoices, inv.payment_status = "Paid" → inv ∈ (step op db).invoices)
    ∧ mark_paid iid (mark_paid iid db) = mark_paid iid db
    ∧ (mark_paid iid db).invoices.map
        (fun inv => (inv.invoice_id, inv.contract_id, inv.amount, inv.invoice_date)) =
      db.invoices.map
        (fun inv => (inv.invoice_id, inv.contract_id, inv.amount, inv.invoice_date)) := by
  refine ⟨?_, ?_, ?_, ?_⟩
  · unfold invoiceStatus
    rw [show (mark_paid iid db).invoices = db.invoices.map (paidUpd iid) from rfl,
      find_mark_paid]
    cases db.invoices.find? fun inv => inv.invoice_id = iid <;> rfl
  · intro inv hmem hp
    cases op with
    | createContract cid vendor desc sd ed budget => exact hmem
    | submitContract cid gen now => exact hmem
    | approveOp aid cid =>
      rw [show (step (Op.approveOp aid cid) db).invoices = db.invoices from
        approve_contract_invoices aid cid db]
      exact hmem
    | rejectOp aid cid => exact hmem
    | recordReport rid cid date work parts labor => exact hmem
    | generateInvoice iid2 cid amount date =>
      exact List.mem_append_left _ hmem
    | markPaid iid2 =>
      exact paidUpd_of_paid iid2 inv hp ▸ List.mem_map_of_mem (paidUpd iid2) hmem
    | seedUser u =>
      rw [show (step (Op.seedUser u) db).invoices = db.invoices from
        seed_user_invoices u db]
      exact hmem
  · have h : (db.invoices.map (paidUpd iid)).map (paidUpd iid) =
        db.invoices.map (paidUpd iid) := by
      rw [List.map_map]
      exact List.map_congr_left fun inv _ => paidUpd_idem iid inv
    show DB.mk db.users db.contracts db.approvals db.service_reports
        ((db.invoices.map (paidUpd iid)).map (paidUpd iid)) =
      DB.mk db.users db.contracts db.approvals db.service_reports
        (db.invoices.map (paidUpd iid))
    rw [h]
  · rw [show (mark_paid iid db).invoices = db.invoices.map (paidUpd iid) from rfl,
      List.map_map]
    exact List.map_congr_left fun inv _ => by
      unfold Function.comp paidUpd
      split <;> rfl

/-- Store used for the C7 witness: one `Pending` and one `Paid` invoice. -/
def dbW7 : DB :=
  ⟨[], [], [], [],
    [⟨"i1", "c1", 500, "d0", "Pending"⟩, ⟨"i2", "c1", 5, "d0", "Paid"⟩]⟩

/-- Witness for C7: the already `Paid` invoice `i2` survives a Mark-Paid
step on `i1` unchanged. -/
theorem C7_markPaid_witness :
    (⟨"i2", "c1", 5, "d0", "Paid"⟩ : Invoice) ∈ (step (Op.markPaid "i1") dbW7).invoices :=
  (C7_markPaid dbW7 "i1" (Op.markPaid "i1")).2.1
    ⟨"i2", "c1", 5, "d0", "Paid"⟩ (by decide) (by decide)

/-- C8: `recordServiceReport` always succeeds and appends exactly one new
report row holding the given contract id (validated against nothing),
date, narrative, parts cost and labor hours; the new row shows up in the
unfiltered listing, and no other table is modified. -/
theorem C8_record_report (db : DB) (rid cid date work : String) (parts labor : Int) :
    (record_service_report rid cid date work parts labor db).service_reports =
      db.service_reports ++ [⟨rid, cid, date, work, parts, labor⟩]
    ∧ (⟨rid, cid, date, work, parts, labor⟩ : ServiceReport) ∈
        list_service_reports (record_service_report rid cid date work parts labor db)
    ∧ (record_service_report rid cid date work parts labor db).service_reports.length =
        db.service_reports.length + 1
    ∧ (record_service_report rid cid date work parts labor db).users = db.users
    ∧ (record_service_report rid cid date work parts labor db).contracts = db.contracts
    ∧ (record_service_report rid cid date work parts labor db).approvals = db.approvals
    ∧ (record_service_report rid cid date work parts labor db).invoices = db.invoices :=
  ⟨rfl, List.mem_append_right _ (List.mem_singleton_self _),
    by simp [record_service_report], rfl, rfl, rfl, rfl⟩

/-- C9: `get_user` returns a stored user record exactly when username and
password both match by plain string equality, and `none` otherwise; being
a pure query it takes the store as input and returns only the row. -/
theorem C9_get_user (db : DB) (u p : String) (r : User) :
    (get_user u p db = some r → r ∈ db.users ∧ r.username = u ∧ r.password = p)
    ∧ (get_user u p db = none ↔ ∀ x ∈ db.users, ¬(x.username = u ∧ x.password = p)) := by
  unfold get_user
  constructor
  · intro h
    have hmem := List.mem_of_find?_eq_some h
    have hp := List.find?_some h
    simp at hp
    exact ⟨hmem, hp.1, hp.2⟩
  · rw [List.find?_eq_none]
    constructor
    · intro h x hx
      simpa using h x hx
    · intro h x hx
      simpa using h x hx

/-- Store used for the C9 witness: the seeded manager and one approver. -/
def dbW9 : DB := ⟨[mgrU, appU1], [], [], [], []⟩

/-- Witness for C9: authenticating with the approver's exact credentials
returns that stored record. -/
theorem C9_get_user_witness :
    appU1 ∈ dbW9.users ∧ appU1.username = "approver_user1"
      ∧ appU1.password = "approver_pass1" :=
  (C9_get_user dbW9 "approver_user1" "approver_pass1" appU1).1 (by decide)

theorem seed_user_approvals (u : User) (db : DB) :
    (seed_user u db).approvals = db.approvals := by
  unfold seed_user
  split <;> rfl

/-- Operations that leave contract `cid` alone: no submit of it, no reject
naming it, and no contract creation reusing its id (identifiers are
fresh uuid4 draws, so a later `create_contract` never reuses an existing
contract's id). -/
def avoidsContract (cid : String) : Op → Prop
  | Op.createContract c _ _ _ _ _ => c ≠ cid
  | Op.submitContract c _ _ => c ≠ cid
  | Op.rejectOp _ c => c ≠ cid
  | _ => True

/-- An approve call as `review_contracts` issues it: the Approve button
exists only for a row of the contracts-approvals join, so the approval id
names an existing approval row and the contract id passed along is that
row's contract. -/
def approveWF : Op → DB → Prop
  | Op.approveOp aid cid, db =>
      ∃ a ∈ db.approvals, a.approval_id = aid ∧ a.contract_id = cid
  | _, _ => True

/-- A trace whose approve calls are well-formed at their execution point. -/
def WFRun : List Op → DB → Prop
  | [], _ => True
  | op :: ops, db => approveWF op db ∧ WFRun ops (step op db)

/-- Contract `cid` has no approval rows and every row of it (if any) is
stuck in `Pending Approval`. -/
def IsolatedPending (cid : String) (db : DB) : Prop :=
  (∀ a ∈ db.approvals, a.contract_id ≠ cid)
  ∧ (∀ ct ∈ db.contracts, ct.contract_id = cid → ct.status = "Pending Approval")

theorem step_isolatedPending (cid : String) (op : Op) (db : DB)
    (h : IsolatedPending cid db) (hav : avoidsContract cid op)
    (hwf : approveWF op db) : IsolatedPending cid (step op db) := by
  obtain ⟨h1, h2⟩ := h
  cases op with
  | createContract c v d sd ed b =>
    have hc : c ≠ cid := hav
    constructor
    · intro a ha
      exact h1 a ha
    · intro ct hct hcid
      have hct' : ct ∈ db.contracts ++ [(⟨c, v, d, sd, ed, b, "Draft"⟩ : Contract)] := hct
      rcases List.mem_append.mp hct' with hm | hm
      · exact h2 ct hm hcid
      · rw [List.mem_singleton.mp hm] at hcid
        exact absurd hcid hc
  | submitContract c gen now =>
    have hc : c ≠ cid := hav
    constructor
    · intro a ha
      have ha' : a ∈ db.approvals ++
          ((approverIds db).enum.map fun p => mkApproval c now (gen p.1) p.2) := ha
      rcases List.mem_append.mp ha' with hm | hm
      · exact h1 a hm
      · obtain ⟨p, _, rfl⟩ := List.mem_map.mp hm
        exact hc
    · intro ct hct hcid
      have hct' : ct ∈ updateContracts c "Pending Approval" db.contracts := hct
      obtain ⟨c0, hc0, rfl⟩ := List.mem_map.mp hct'
      by_cases hcc : c0.contract_id = c
      · rw [if_pos hcc]
      · rw [if_neg hcc] at hcid ⊢
        exact h2 c0 hc0 hcid
  | approveOp aid c =>
    obtain ⟨a0, ha0, _, hac⟩ := hwf
    have hc : c ≠ cid := hac ▸ h1 a0 ha0
    constructor
    · intro a ha
      have ha' : a ∈ updateApprovalStatus aid "Approved" db.approvals := by
        rw [show (step (Op.approveOp aid c) db).approvals =
          updateApprovalStatus aid "Approved" db.approvals from
            approve_contract_approvals aid c db] at ha
        exact ha
      obtain ⟨a1, ha1, rfl⟩ := List.mem_map.mp ha'
      by_cases hb : a1.approval_id = aid
      · rw [if_pos hb]
        exact h1 a1 ha1
      · rw [if_neg hb]
        exact h1 a1 ha1
    · intro ct hct hcid
      by_cases hcnt : approvedCount (approve_commit1 aid db) c =
          totalCount (approve_commit1 aid db) c
      · rw [show (step (Op.approveOp aid c) db).contracts =
          updateContracts c "Active" db.contracts from
            approve_contract_contracts_pos aid c db hcnt] at hct
        obtain ⟨c0, hc0, rfl⟩ := List.mem_map.mp hct
        by_cases hcc : c0.contract_id = c
        · rw [if_pos hcc] at hcid
          exact absurd (hcc.symm.trans hcid) hc
        · rw [if_neg hcc] at hcid ⊢
          exact h2 c0 hc0 hcid
      · rw [show (step (Op.approveOp aid c) db).contracts = db.contracts from
          approve_contract_contracts_neg aid c db hcnt] at hct
        exact h2 ct hct hcid
  | rejectOp aid c =>
    have hc : c ≠ cid := hav
    constructor
    · intro a ha
      have ha' : a ∈ updateApprovalStatus aid "Rejected" db.approvals := ha
      obtain ⟨a1, ha1, rfl⟩ := List.mem_map.mp ha'
      by_cases hb : a1.approval_id = aid
      · rw [if_pos hb]
        exact h1 a1 ha1
      · rw [if_neg hb]
        exact h1 a1 ha1
    · intro ct hct hcid
      have hct' : ct ∈ updateContracts c "Rejected" db.contracts := hct
      obtain ⟨c0, hc0, rfl⟩ := List.mem_map.mp hct'
      by_cases hcc : c0.contract_id = c
      · rw [if_pos hcc] at hcid
        exact absurd (hcc.symm.trans hcid) hc
      · rw [if_neg hcc] at hcid ⊢
        exact h2 c0 hc0 hcid
  | recordReport rid c date work parts labor =>
    exact ⟨fun a ha => h1 a ha, fun ct hct hcid => h2 ct hct hcid⟩
  | generateInvoice iid c amount date =>
    exact ⟨fun a ha => h1 a ha, fun ct hct hcid => h2 ct hct hcid⟩
  | markPaid iid =>
    exact ⟨fun a ha => h1 a ha, fun ct hct hcid => h2 ct hct hcid⟩
  | seedUser u =>
    constructor
    · intro a ha
      rw [show (step (Op.seedUser u) db).approvals = db.approvals from
        seed_user_approvals u db] at ha
      exact h1 a ha
    · intro ct hct hcid
      rw [show (step (Op.seedUser u) db).contracts = db.contracts from
        seed_user_contracts u db] at hct
      exact h2 ct hct hcid

theorem run_isolatedPending (cid : String) (ops : List Op) (db : DB)
    (h : IsolatedPending cid db) (hav : ∀ op ∈ ops, avoidsContract cid op)
    (hwf : WFRun ops db) : IsolatedPending cid (run ops db) := by
  induction ops generalizing db with
  | nil => exact h
  | cons op t ih =>
    exact ih (step op db)
      (step_isolatedPending cid op db h (hav op (List.mem_cons_self op t)) hwf.1)
      (fun o ho => hav o (List.mem_cons_of_mem op ho)) hwf.2

/-- C10: if no user has role `"approver"` when a contract is submitted,
the submission creates zero approval rows, and under any subsequent trace
that never resubmits, rejects, or id-reuses that contract — and whose
approve calls target existing approval rows with their own contract id,
as the UI guarantees — the contract never leaves `"Pending Approval"`
(in particular it can never become `"Active"`). -/
theorem C10_no_approver (db : DB) (cid now : String) (gen : Nat → String) (ops : List Op)
    (hnoap : approverIds db = [])
    (hfresh : ∀ a ∈ db.approvals, a.contract_id ≠ cid)
    (havoid : ∀ op ∈ ops, avoidsContract cid op)
    (hwf : WFRun ops (submit_contract_for_approval cid gen now db)) :
    (submit_contract_for_approval cid gen now db).approvals = db.approvals
    ∧ ∀ ct ∈ (run ops (submit_contract_for_approval cid gen now db)).contracts,
        ct.contract_id = cid → ct.status = "Pending Approval" := by
  have happ : (submit_contract_for_approval cid gen now db).approvals = db.approvals := by
    rw [submit_approvals, hnoap]
    simp
  refine ⟨happ, ?_⟩
  have h0 : IsolatedPending cid (submit_contract_for_approval cid gen now db) := by
    constructor
    · intro a ha
      rw [happ] at ha
      exact hfresh a ha
    · intro ct hct hcid
      have hct' : ct ∈ updateContracts cid "Pending Approval" db.contracts := hct
      obtain ⟨c0, _, rfl⟩ := List.mem_map.mp hct'
      by_cases hcc : c0.contract_id = cid
      · rw [if_pos hcc]
      · rw [if_neg hcc] at hcid
        exact absurd hcid hcc
  exact (run_isolatedPending cid ops _ h0 havoid hwf).2

/-- Store used for the C10 witness: only the manager user exists, so there
is no approver; contract `c1` is in `Draft`. -/
def dbW10 : DB := ⟨[mgrU], [⟨"c1", "V", "D", "s", "e", 0, "Draft"⟩], [], [], []⟩

/-- Witness for C10: submitting `c1` with no approver present creates no
approval row at all. -/
theorem C10_no_approver_witness :
    (submit_contract_for_approval "c1" genT "t0" dbW10).approvals = [] :=
  (C10_no_approver dbW10 "c1" "t0" genT [Op.generateInvoice "i1" "c1" 500 "d0"]
    (by decide) (by intro a ha; cases ha)
    (by
      intro op hop
      rw [List.mem_singleton.mp hop]
      trivial)
    ⟨trivial, trivial⟩).1
